import Mathlib

/-!
Shallow embedding of the settings store implemented in
`src/lib/database/settingdb.js` (the multi-backend `SettingsDB` class),
together with proofs about the properties stated in its specification.

Modelling conventions:
* JavaScript values stored in the settings maps are modelled by the
  inductive `JVal`; a missing object property and an explicitly stored
  `undefined` are both represented by `JVal.undefined`, matching the
  `!== undefined` tests used by the source.
* JavaScript objects and `Map`s are modelled as insertion-ordered
  association lists; `alSet` mirrors the property-assignment /
  `Map.set` semantics (update in place for an existing key, append for
  a new key) and `alDel` mirrors `Map.delete`.
* Strings are treated as their character sequences; `strIncludes`,
  `strToLower` and `strEndsWith` model `String.prototype.includes`,
  `toLowerCase` and `endsWith`.
* Wall-clock reads (`new Date().toISOString()`, `Date.now()`) are passed
  in as explicit parameters (`now : String`, `nowMs : Nat`).
* The filesystem is an association list from paths to file contents;
  `JSON.parse`/`JSON.stringify` are modelled by the `Content` type:
  a file either holds a parseable settings document (`Content.doc`) or
  unparseable text (`Content.invalid`); `stringifyDoc` captures that
  `JSON.stringify` drops object properties whose value is `undefined`.
* Asynchronous persistence is modelled at two granularities: `save` as
  an atomic step (the physical write completing in-step), and the
  `SaveSched` machine, which exposes the in-flight/pending control flow
  of `save()` (lines 211-255) as explicit small steps so that requests
  arriving during an in-flight write can be expressed.
-/

/-- JavaScript string `includes` for a single character. -/
def strIncludes (s : String) (c : Char) : Bool := s.data.contains c

/-- JavaScript string `toLowerCase`. -/
def strToLower (s : String) : String := ⟨s.data.map Char.toLower⟩

/-- JavaScript string `endsWith`. -/
def strEndsWith (s tail : String) : Bool := tail.data.isSuffixOf s.data

/-- A JavaScript value as stored in the settings maps.  `undefined` stands for
the JavaScript value of that name (also the result of reading a missing property). -/
inductive JVal where
  | undefined
  | null
  | bool (b : Bool)
  | num (n : Int)
  | str (s : String)
  | obj (fields : List (String × JVal))

/-- A JavaScript object: an insertion-ordered association list. -/
abbrev Obj := List (String × JVal)

/-- Lookup in an association list (first match). -/
def alGet {α : Type} : List (String × α) → String → Option α
  | [], _ => none
  | (k, v) :: rest, key => if k = key then some v else alGet rest key

/-- JavaScript property assignment / `Map.set`: replace in place if the key
exists, append otherwise. -/
def alSet {α : Type} : List (String × α) → String → α → List (String × α)
  | [], key, val => [(key, val)]
  | (k, v) :: rest, key, val =>
      if k = key then (k, val) :: rest else (k, v) :: alSet rest key val

/-- `Map.delete`: remove the entry for a key. -/
def alDel {α : Type} : List (String × α) → String → List (String × α)
  | [], _ => []
  | (k, v) :: rest, key =>
      if k = key then rest else (k, v) :: alDel rest key

/-- Key membership. -/
def alHas {α : Type} (l : List (String × α)) (k : String) : Bool :=
  (alGet l k).isSome

/-- JavaScript property read: a missing property reads as `undefined`. -/
def jsGet (o : Obj) (k : String) : JVal := (alGet o k).getD .undefined

/-- `undefined` test. -/
def JVal.isUndefined : JVal → Bool
  | .undefined => true
  | _ => false

/-- JavaScript truthiness (`Boolean(v)` / use in a condition). -/
def truthy : JVal → Bool
  | .undefined => false
  | .null => false
  | .bool b => b
  | .num n => n != 0
  | .str s => s ≠ ""
  | .obj _ => true

/-- `toBool` from settingdb.js lines 15-22: `true`/`1` map to true,
`false`/`0` to false, strings go through a case-insensitive truth table,
everything else through `Boolean(v)`. -/
def JVal.toBool : JVal → Bool
  | .bool b => b
  | .num n => n != 0
  | .str s => (["true", "1", "yes", "on"]).contains (strToLower s)
  | v => truthy v

/-- `Object.fromEntries` / the `Map` constructor applied to an entry list:
later entries overwrite earlier ones, key order is first occurrence. -/
def fromEntries {α : Type} (l : List (String × α)) : List (String × α) :=
  l.foldl (fun acc kv => alSet acc kv.1 kv.2) []

/-- Object spread `{...v}`: the own enumerable entries contributed by a
value (an object contributes its fields, a string its indexed characters,
primitives contribute nothing). -/
def spreadVal : JVal → Obj
  | .obj fields => fields
  | .str s => s.data.enum.map fun ic => (toString ic.1, JVal.str (String.singleton ic.2))
  | _ => []

/-- The Snapshot: the serializable triple of settings state (spec section 3). -/
structure Snapshot where
  globalSettings : Obj
  groupSettings : List (String × Obj)
  updateTimes : List (String × List (String × String))

/-- A parsed settings document, as produced by `JSON.parse` on a settings
file.  The fields are optional, mirroring the `json.globalSettings || {}`
defaulting performed by `load()`. -/
structure Doc where
  globalSettings : Option Obj
  groupSettings : Option (List (String × Obj))
  updateTimes : Option (List (String × List (String × String)))

/-- The contents of a file: either JSON that parses to a settings document,
or text on which `JSON.parse` throws. -/
inductive Content where
  | doc (d : Doc)
  | invalid (s : String)

/-- The filesystem: an association list from paths to file contents. -/
abbrev FS := List (String × Content)

/-- The in-memory state of a `SettingsDB` instance (constructor,
lines 24-60): the Snapshot fields, the persistence flags, and the
backend configuration (`databaseUrl` abbreviated to its scheme). -/
structure SettingsDB where
  file : String
  useDb : Bool
  dbProto : Option String
  startupTime : String
  globalSettings : Obj
  groupSettings : List (String × Obj)
  updateTimes : List (String × List (String × String))
  dirty : Bool
  saving : Bool
  pendingSave : Bool

/-- The Snapshot held by a store state. -/
def SettingsDB.snap (st : SettingsDB) : Snapshot :=
  ⟨st.globalSettings, st.groupSettings, st.updateTimes⟩

/-- A freshly constructed store (no database URL): empty caches, clean
flags. -/
def freshDB (file startup : String) : SettingsDB :=
  { file := file, useDb := false, dbProto := none, startupTime := startup
    globalSettings := [], groupSettings := [], updateTimes := []
    dirty := false, saving := false, pendingSave := false }

/-- Observable effects of an operation: an emitted event, or a triggered
persistence request (`this.save()` being invoked). -/
inductive Event where
  | updateGlobal (plugin : String) (value : JVal)
  | updateGroup (jid plugin : String) (value : JVal)
  | deleteGroupEv (jid : String)
  | savedEv

inductive Act where
  | emit (e : Event)
  | saveReq

/-- Whether an action list contains an `update` event. -/
def hasUpdateEvent (acts : List Act) : Bool :=
  acts.any fun a =>
    match a with
    | .emit (.updateGlobal _ _) => true
    | .emit (.updateGroup _ _ _) => true
    | _ => false

/-- `_isJid` (lines 479-481): string ends with `@g.us` or contains `@`. -/
def isJidStr (s : String) : Bool :=
  strEndsWith s "@g.us" || strIncludes s '@'

/-- `_setUpdateTime` (lines 483-488): a falsy scope token falls back to
`global`; the per-scope map gets the plugin key stamped with the current
ISO time. -/
def SettingsDB.setUpdateTime (st : SettingsDB) (jidOrGlobal plugin now : String) :
    SettingsDB :=
  let key := if jidOrGlobal = "" then "global" else jidOrGlobal
  let m := (alGet st.updateTimes key).getD []
  { st with updateTimes := alSet st.updateTimes key (alSet m plugin now) }

/-- `setGlobal` (lines 425-431). -/
def SettingsDB.setGlobal (st : SettingsDB) (pluginKey : String) (value : JVal)
    (now : String) (persist : Bool) : SettingsDB × List Act :=
  let st := { st with globalSettings := alSet st.globalSettings pluginKey value }
  let st := st.setUpdateTime "global" pluginKey now
  let st := { st with dirty := true }
  (st, [Act.emit (.updateGlobal pluginKey value)] ++ if persist then [Act.saveReq] else [])

/-- `setGroupPlugin` (lines 433-441). -/
def SettingsDB.setGroupPlugin (st : SettingsDB) (jid pluginName : String)
    (value : JVal) (now : String) (persist : Bool) : SettingsDB × List Act :=
  let existing := (alGet st.groupSettings jid).getD []
  let existing := alSet existing pluginName value
  let st := { st with groupSettings := alSet st.groupSettings jid existing }
  let st := st.setUpdateTime jid pluginName now
  let st := { st with dirty := true }
  (st, [Act.emit (.updateGroup jid pluginName value)] ++ if persist then [Act.saveReq] else [])

/-- `toggleGlobal` (lines 443-448): flips `Boolean(current)` and delegates
to `setGlobal`; also returns the new value. -/
def SettingsDB.toggleGlobal (st : SettingsDB) (pluginKey : String)
    (now : String) (persist : Bool) : (SettingsDB × List Act) × Bool :=
  let current := truthy (jsGet st.globalSettings pluginKey)
  let next := !current
  (st.setGlobal pluginKey (.bool next) now persist, next)

/-- `toggleGroupPlugin` (lines 450-461): inlined group update flipping
`Boolean(current)`. -/
def SettingsDB.toggleGroupPlugin (st : SettingsDB) (jid pluginKey : String)
    (now : String) (persist : Bool) : (SettingsDB × List Act) × Bool :=
  let existing := (alGet st.groupSettings jid).getD []
  let current := truthy (jsGet existing pluginKey)
  let next := !current
  let existing := alSet existing pluginKey (.bool next)
  let st := { st with groupSettings := alSet st.groupSettings jid existing }
  let st := st.setUpdateTime jid pluginKey now
  let st := { st with dirty := true }
  ((st, [Act.emit (.updateGroup jid pluginKey (.bool next))] ++ if persist then [Act.saveReq] else []),
   next)

/-- `setGroupPluginConfig` (lines 463-476): rejects a non-object config,
otherwise shallow-merges it over `existing[pluginName] || {}`.  Returns the
stored merged value. -/
def SettingsDB.setGroupPluginConfig (st : SettingsDB) (jid pluginName : String)
    (configObj : JVal) (now : String) (persist : Bool) :
    Except String ((SettingsDB × List Act) × JVal) :=
  match configObj with
  | .obj cfgFields =>
      let existing := (alGet st.groupSettings jid).getD []
      let prevRaw := jsGet existing pluginName
      let prev := if truthy prevRaw then prevRaw else .obj []
      let merged := JVal.obj (fromEntries (spreadVal prev ++ cfgFields))
      let existing := alSet existing pluginName merged
      let st := { st with groupSettings := alSet st.groupSettings jid existing }
      let st := st.setUpdateTime jid pluginName now
      let st := { st with dirty := true }
      .ok ((st, [Act.emit (.updateGroup jid pluginName merged)] ++ if persist then [Act.saveReq] else []),
           merged)
  | _ => .error "configObj must be an object"

/-- `deleteGroup` (lines 500-507): removes the scope from `groupSettings`
and `updateTimes`, marks dirty, emits `deleteGroup`, and returns whether
the scope existed. -/
def SettingsDB.deleteGroup (st : SettingsDB) (jid : String) (persist : Bool) :
    (SettingsDB × List Act) × Bool :=
  let existed := alHas st.groupSettings jid
  let st := { st with groupSettings := alDel st.groupSettings jid
                      updateTimes := alDel st.updateTimes jid
                      dirty := true }
  ((st, [Act.emit (.deleteGroupEv jid)] ++ if persist then [Act.saveReq] else []), existed)

/-- The generic `set` (lines 415-423): dispatches to the group branch when
the first argument looks like a jid and the second is a string; throws when
the second argument is `undefined`; otherwise stores globally. -/
def SettingsDB.set (st : SettingsDB) (jidOrPlugin : String) (pluginName value : JVal)
    (now : String) (persist : Bool) : Except String (SettingsDB × List Act) :=
  match pluginName with
  | .str pn =>
      if isJidStr jidOrPlugin then .ok (st.setGroupPlugin jidOrPlugin pn value now persist)
      else .ok (st.setGlobal jidOrPlugin (.str pn) now persist)
  | .undefined => .error "Invalid arguments. Use set(pluginKey, value) or set(jid, pluginName, value)."
  | other => .ok (st.setGlobal jidOrPlugin other now persist)

/-- The `jid ? this.groupSettings.get(jid) : null` prelude of `getMultiple`
(line 529): a falsy jid (absent or the empty string) selects no group
configuration. -/
def SettingsDB.groupCfgOf (st : SettingsDB) (jid : Option String) : Option Obj :=
  match jid with
  | some j => if j = "" then none else alGet st.groupSettings j
  | none => none

/-- The loop body of `getMultiple` (lines 530-546): resolve one key through
group override → global fallback → default, then normalize to boolean when
the default at that key is boolean-typed. -/
def SettingsDB.getMultipleVal (st : SettingsDB) (groupCfg : Option Obj)
    (defaults : Obj) (key : String) : JVal :=
  let val :=
    match groupCfg with
    | some g =>
        if !(jsGet g key).isUndefined then jsGet g key
        else if !(jsGet st.globalSettings key).isUndefined then jsGet st.globalSettings key
        else jsGet defaults key
    | none =>
        if !(jsGet st.globalSettings key).isUndefined then jsGet st.globalSettings key
        else jsGet defaults key
  match jsGet defaults key with
  | .bool _ => JVal.bool (JVal.toBool val)
  | _ => val

/-- `getMultiple` (lines 527-548): per-key resolution
group → global → default, with boolean normalization when the default is
boolean-typed. -/
def SettingsDB.getMultiple (st : SettingsDB) (jid : Option String)
    (keys : List String) (defaults : Obj) : Obj :=
  let groupCfg := st.groupCfgOf jid
  keys.foldl (fun out key => alSet out key (st.getMultipleVal groupCfg defaults key)) []

/-- The document built by `save()` (lines 220-226): the global object as-is,
the two `Map`s converted through `Object.fromEntries`. -/
def SettingsDB.serialize (st : SettingsDB) : Doc :=
  { globalSettings := some st.globalSettings
    groupSettings := some (fromEntries st.groupSettings)
    updateTimes := some (fromEntries (st.updateTimes.map fun kv => (kv.1, fromEntries kv.2))) }

mutual
/-- `JSON.stringify` on a stored value: an object property whose value is
`undefined` is dropped (it is not JSON-representable), nested objects are
processed recursively, other leaves serialize to themselves. -/
def stringifyVal : JVal → JVal
  | .obj fields => .obj (stringifyObj fields)
  | v => v
/-- `JSON.stringify` on an object's fields: drop undefined-valued
properties, recurse into the surviving values. -/
def stringifyObj : Obj → Obj
  | [] => []
  | (k, v) :: rest =>
      if v.isUndefined then stringifyObj rest
      else (k, stringifyVal v) :: stringifyObj rest
end

/-- What `JSON.stringify(obj, null, 2)` (line 238) persists of the
document: the settings maps lose their undefined-valued properties; the
`updateTimes` leaves are strings and survive unchanged. -/
def stringifyDoc (d : Doc) : Doc :=
  { globalSettings := d.globalSettings.map stringifyObj
    groupSettings := d.groupSettings.map fun l => l.map fun kv => (kv.1, stringifyObj kv.2)
    updateTimes := d.updateTimes }

mutual
/-- A value neither is nor contains an undefined-valued property. -/
def valNoUndefined : JVal → Bool
  | .obj fields => objNoUndefined fields
  | _ => true
/-- No field of the object holds `undefined` or hides one in a nested
object. -/
def objNoUndefined : Obj → Bool
  | [] => true
  | (_, v) :: rest => !v.isUndefined && valNoUndefined v && objNoUndefined rest
end

/-- No stored settings value is, or contains, an undefined-valued
property — the fragment of the state space on which serialization is
lossless. -/
def SettingsDB.noUndefined (st : SettingsDB) : Bool :=
  objNoUndefined st.globalSettings && st.groupSettings.all fun kv => objNoUndefined kv.2

/-- The local write of `save()` (lines 237-239): write the serialized
document to `file + ".tmp"`, then rename it over the real path. -/
def writeAtomic (fs : FS) (file : String) (c : Content) : FS :=
  let fs := alSet fs (file ++ ".tmp") c
  alSet (alDel fs (file ++ ".tmp")) file c

/-- `save()` (lines 211-255) for the local-file backend, with the physical
write modelled as completing within the step.  The file receives
`JSON.stringify(obj, null, 2)`, i.e. the document with undefined-valued
properties dropped.  A call arriving while a write is in flight only sets
the pending flag (the in-flight interleaving itself is the `SaveSched`
machine below). -/
def SettingsDB.save (st : SettingsDB) (fs : FS) : SettingsDB × FS × List Act :=
  if st.saving then ({ st with pendingSave := true }, fs, [])
  else
    let st := { st with saving := true, pendingSave := false }
    let obj := st.serialize
    let fs := writeAtomic fs st.file (.doc (stringifyDoc obj))
    ({ st with dirty := false, saving := false }, fs, [Act.emit .savedEv])

/-- Adoption of a parsed document by `load()` (lines 162-168 / 180-186):
each field defaulted with `|| {}`, the maps rebuilt through the `Map`
constructor, dirty reset, startup time restamped. -/
def SettingsDB.adopt (st : SettingsDB) (d : Doc) (now : String) : SettingsDB :=
  { st with
      globalSettings := d.globalSettings.getD []
      groupSettings := fromEntries (d.groupSettings.getD [])
      updateTimes := fromEntries ((d.updateTimes.getD []).map fun kv => (kv.1, fromEntries kv.2))
      startupTime := now
      dirty := false }

/-- The catch clause of `load()` (lines 188-198): if the local file exists,
copy its contents to `file + ".corrupt." + Date.now()`. -/
def backupCorrupt (st : SettingsDB) (fs : FS) (nowMs : Nat) : FS :=
  match alGet fs st.file with
  | some c => alSet fs (st.file ++ ".corrupt." ++ toString nowMs) c
  | none => fs

/-- `_writeInitialFile` (lines 202-209) followed by `return true`
(lines 174-177): reset the caches to empty and save. -/
def SettingsDB.writeInitialFile (st : SettingsDB) (fs : FS) : SettingsDB × FS :=
  let st := { st with globalSettings := [], groupSettings := [], updateTimes := [] }
  ((st.save fs).1, (st.save fs).2.1)

/-- The local-file part of `load()` (lines 174-199): bootstrap a missing
file, adopt a parseable one, or back up an unparseable one and report
failure. -/
def SettingsDB.loadLocalFile (st : SettingsDB) (fs : FS) (now : String) (nowMs : Nat) :
    SettingsDB × FS × Bool :=
  match alGet fs st.file with
  | none =>
      let (st, fs) := st.writeInitialFile fs
      (st, fs, true)
  | some (.doc d) => (st.adopt d now, fs, true)
  | some (.invalid _) => (st, backupCorrupt st fs nowMs, false)

/-- `_initDbClients` (lines 69-145) reduced to its scheme dispatch: the
recognized schemes select a driver kind, anything else throws
`Unsupported databaseUrl protocol`. -/
def initDbClients (proto : String) : Except String String :=
  if proto = "postgres" || proto = "postgresql" then .ok "postgres"
  else if proto = "mongodb" then .ok "mongodb"
  else if proto = "mysql" then .ok "mysql"
  else if proto = "file" then .ok "file"
  else if proto = "http" || proto = "https" then .ok "http"
  else .error ("Unsupported databaseUrl protocol: " ++ proto)

/-- The scheme list accepted by `_initDbClients`. -/
def recognizedProtos : List String :=
  ["postgres", "postgresql", "mongodb", "mysql", "file", "http", "https"]

/-- `load()` (lines 154-200).  `remote` abstracts `_remoteLoad()`, which
returns a document or `null` (it catches its own transport errors).  A
throw from `_initDbClients` lands in the catch clause, which backs up the
local file if present and returns false. -/
def SettingsDB.load (st : SettingsDB) (fs : FS) (remote : Option Doc)
    (now : String) (nowMs : Nat) : SettingsDB × FS × Bool :=
  if st.useDb then
    match initDbClients (st.dbProto.getD "") with
    | .error _ => (st, backupCorrupt st fs nowMs, false)
    | .ok _ =>
        match remote with
        | some d => (st.adopt d now, fs, true)
        | none => st.loadLocalFile fs now nowMs
  else st.loadLocalFile fs now nowMs

/-- The control flow of `save()` (lines 211-255) as a small-step machine,
so that requests arriving while a physical write is in flight can be
expressed.  `writes` records, most recent first, the Snapshot captured by
each physical write started; `cur` is the current in-memory Snapshot. -/
structure SaveSched where
  saving : Bool
  pending : Bool
  writes : List Snapshot
  cur : Snapshot

/-- A `save()` call arriving (lines 211-218): while a write is in flight it
only sets the single pending flag; otherwise it starts a physical write
capturing the current Snapshot. -/
def schedSaveCall (s : SaveSched) : SaveSched :=
  if s.saving then { s with pending := true }
  else { s with saving := true, pending := false, writes := s.cur :: s.writes }

/-- An in-memory mutation happening while a write is in flight: the current
Snapshot changes. -/
def schedMutate (s : SaveSched) (snap : Snapshot) : SaveSched :=
  { s with cur := snap }

/-- The in-flight write completing (lines 240-249): clear the saving flag;
if the pending flag is set, clear it and run one follow-up `save()` call. -/
def schedComplete (s : SaveSched) : SaveSched :=
  let s1 : SaveSched := { s with saving := false }
  if s.pending then schedSaveCall { s1 with pending := false } else s1

/-- `n` successive `save()` calls. -/
def schedSaveCalls : Nat → SaveSched → SaveSched
  | 0, s => s
  | n + 1, s => schedSaveCalls n (schedSaveCall s)

/-- A mutation call against the Config Store facade, as replayed for the
determinism property (spec section 8). -/
inductive MCall where
  | mSetGlobal (k : String) (v : JVal) (persist : Bool)
  | mSetGroupPlugin (jid k : String) (v : JVal) (persist : Bool)
  | mSetGroupPluginConfig (jid k : String) (cfg : JVal) (persist : Bool)
  | mToggleGlobal (k : String) (persist : Bool)
  | mToggleGroupPlugin (jid k : String) (persist : Bool)
  | mDeleteGroup (jid : String) (persist : Bool)

/-- Apply one mutation call at a given observed wall-clock time.  A call
that throws (`setGroupPluginConfig` on a non-object) leaves the state
unchanged. -/
def applyCall (st : SettingsDB) (c : MCall) (now : String) : SettingsDB :=
  match c with
  | .mSetGlobal k v p => (st.setGlobal k v now p).1
  | .mSetGroupPlugin jid k v p => (st.setGroupPlugin jid k v now p).1
  | .mSetGroupPluginConfig jid k cfg p =>
      match st.setGroupPluginConfig jid k cfg now p with
      | .ok r => r.1.1
      | .error _ => st
  | .mToggleGlobal k p => (st.toggleGlobal k now p).1.1
  | .mToggleGroupPlugin jid k p => (st.toggleGroupPlugin jid k now p).1.1
  | .mDeleteGroup jid p => (st.deleteGroup jid p).1.1

/-- Replay a sequence of mutation calls, each paired with the wall-clock
time observed when it ran. -/
def replay (st : SettingsDB) : List (MCall × String) → SettingsDB
  | [] => st
  | (c, t) :: rest => replay (applyCall st c t) rest

/-- Resolution of one key as the specification words it for `getMultiple`:
the group-scope value if present, else the global value if present, else
the default — where a falsy scope (absent or the empty string) carries no
group layer. -/
def specResolve (st : SettingsDB) (jid : Option String) (defaults : Obj)
    (key : String) : JVal :=
  let groupVal : JVal :=
    match jid with
    | some j => if j = "" then .undefined else jsGet ((alGet st.groupSettings j).getD []) key
    | none => .undefined
  if !groupVal.isUndefined then groupVal
  else if !(jsGet st.globalSettings key).isUndefined then jsGet st.globalSettings key
  else jsGet defaults key

/-- The specified result of `getMultiple` at one key: the resolution above,
coerced to boolean when the default at that key is boolean-typed. -/
def specResult (st : SettingsDB) (jid : Option String) (defaults : Obj)
    (key : String) : JVal :=
  match jsGet defaults key with
  | .bool _ => .bool (JVal.toBool (specResolve st jid defaults key))
  | _ => specResolve st jid defaults key

/-- Well-formed association list: keys pairwise distinct (the invariant of
every JavaScript object / `Map`). -/
def wfKeys {α : Type} : List (String × α) → Bool
  | [] => true
  | (k, _) :: rest => !alHas rest k && wfKeys rest

/-- Every Snapshot component of a store has distinct keys at both levels. -/
def SettingsDB.WF (st : SettingsDB) : Bool :=
  wfKeys st.globalSettings && wfKeys st.groupSettings &&
  st.groupSettings.all (fun kv => wfKeys kv.2) &&
  wfKeys st.updateTimes && st.updateTimes.all (fun kv => wfKeys kv.2)

theorem alGet_set_self {α : Type} (l : List (String × α)) (k : String) (v : α) :
    alGet (alSet l k v) k = some v := by
  induction l with
  | nil => simp [alSet, alGet]
  | cons kv rest ih =>
      obtain ⟨k0, v0⟩ := kv
      by_cases h : k0 = k
      · simp [alSet, alGet, h]
      · simp [alSet, alGet, h, ih]

theorem alGet_set_ne {α : Type} (l : List (String × α)) (k k' : String) (v : α)
    (h : k ≠ k') : alGet (alSet l k v) k' = alGet l k' := by
  induction l with
  | nil => simp [alSet, alGet, h]
  | cons kv rest ih =>
      obtain ⟨k0, v0⟩ := kv
      by_cases h0 : k0 = k
      · subst h0
        simp [alSet, alGet, h]
      · simp [alSet, h0, alGet, ih]

theorem alGet_eq_none_iff {α : Type} (l : List (String × α)) (k : String) :
    alGet l k = none ↔ ∀ kv ∈ l, kv.1 ≠ k := by
  induction l with
  | nil => simp [alGet]
  | cons kv rest ih =>
      obtain ⟨k0, v0⟩ := kv
      by_cases h0 : k0 = k
      · simp [alGet, h0]
      · simp [alGet, h0, ih]

theorem alHas_eq_false_iff {α : Type} (l : List (String × α)) (k : String) :
    alHas l k = false ↔ alGet l k = none := by
  unfold alHas
  cases alGet l k <;> simp

theorem alSet_of_not_has {α : Type} (l : List (String × α)) (k : String) (v : α)
    (h : alHas l k = false) : alSet l k v = l ++ [(k, v)] := by
  induction l with
  | nil => simp [alSet]
  | cons kv rest ih =>
      obtain ⟨k0, v0⟩ := kv
      rw [alHas_eq_false_iff] at h ih
      rw [alGet_eq_none_iff] at h
      have hk0 : k0 ≠ k := h (k0, v0) (by simp)
      have hrest : alGet rest k = none := by
        rw [alGet_eq_none_iff]
        intro kv hkv
        exact h kv (List.mem_cons_of_mem _ hkv)
      simp [alSet, hk0, ih hrest]

theorem alGet_append {α : Type} (l m : List (String × α)) (k : String) :
    alGet (l ++ m) k = (alGet l k).or (alGet m k) := by
  induction l with
  | nil => simp [alGet]
  | cons kv rest ih =>
      obtain ⟨k0, v0⟩ := kv
      by_cases h0 : k0 = k
      · simp [alGet, h0]
      · simp [alGet, h0, ih]

theorem foldl_alSet_of_fresh {α : Type} (l : List (String × α)) :
    ∀ acc : List (String × α), (∀ kv ∈ l, alHas acc kv.1 = false) →
    wfKeys l = true →
    l.foldl (fun a kv => alSet a kv.1 kv.2) acc = acc ++ l := by
  induction l with
  | nil => intro acc _ _; simp
  | cons kv rest ih =>
      intro acc hfresh hwf
      obtain ⟨k0, v0⟩ := kv
      have hwf0 : alHas rest k0 = false ∧ wfKeys rest = true := by
        simpa [wfKeys] using hwf
      have hstep : alSet acc k0 v0 = acc ++ [(k0, v0)] :=
        alSet_of_not_has acc k0 v0 (hfresh (k0, v0) (by simp))
      have hfresh' : ∀ kv ∈ rest, alHas (acc ++ [(k0, v0)]) kv.1 = false := by
        intro kv hkv
        have h1 : alGet acc kv.1 = none := by
          rw [← alHas_eq_false_iff]
          exact hfresh kv (List.mem_cons_of_mem _ hkv)
        have h2 : kv.1 ≠ k0 := by
          intro hcontra
          have := (alGet_eq_none_iff rest k0).mp ((alHas_eq_false_iff rest k0).mp hwf0.1)
          exact this kv hkv hcontra
        have h3 : alGet [(k0, v0)] kv.1 = none := by
          have hne : k0 ≠ kv.1 := fun hc => h2 hc.symm
          simp [alGet, hne]
        rw [alHas_eq_false_iff, alGet_append, h1, h3]
        rfl
      calc ((k0, v0) :: rest).foldl (fun a kv => alSet a kv.1 kv.2) acc
          = rest.foldl (fun a kv => alSet a kv.1 kv.2) (alSet acc k0 v0) := by simp
        _ = (acc ++ [(k0, v0)]) ++ rest := by rw [hstep]; exact ih _ hfresh' hwf0.2
        _ = acc ++ (k0, v0) :: rest := by simp

theorem fromEntries_of_wf {α : Type} (l : List (String × α)) (h : wfKeys l = true) :
    fromEntries l = l := by
  have := foldl_alSet_of_fresh l [] (by intro kv _; rfl) h
  simpa [fromEntries] using this

theorem alGet_map {α β : Type} (f : α → β) (l : List (String × α)) (k : String) :
    alGet (l.map fun kv => (kv.1, f kv.2)) k = (alGet l k).map f := by
  induction l with
  | nil => simp [alGet]
  | cons kv rest ih =>
      obtain ⟨k0, v0⟩ := kv
      by_cases h0 : k0 = k
      · simp [alGet, h0]
      · simp [alGet, h0, ih]

theorem alHas_map {α β : Type} (f : α → β) (l : List (String × α)) (k : String) :
    alHas (l.map fun kv => (kv.1, f kv.2)) k = alHas l k := by
  unfold alHas
  rw [alGet_map]
  cases alGet l k <;> rfl

theorem wfKeys_map {α β : Type} (f : α → β) (l : List (String × α)) :
    wfKeys (l.map fun kv => (kv.1, f kv.2)) = wfKeys l := by
  induction l with
  | nil => rfl
  | cons kv rest ih =>
      obtain ⟨k0, v0⟩ := kv
      simp [wfKeys, alHas_map, ih]

theorem map_fromEntries_of_all_wf {α : Type}
    (l : List (String × List (String × α)))
    (h : ∀ kv ∈ l, wfKeys kv.2 = true) :
    (l.map fun kv => (kv.1, fromEntries kv.2)) = l := by
  induction l with
  | nil => rfl
  | cons kv rest ih =>
      obtain ⟨k0, v0⟩ := kv
      have h0 : fromEntries v0 = v0 := fromEntries_of_wf v0 (h (k0, v0) (by simp))
      have hrest := ih (fun kv hkv => h kv (List.mem_cons_of_mem _ hkv))
      simp [h0, hrest]

theorem foldl_alSet_lookup (F : String → JVal) (keys : List String) :
    ∀ (acc : Obj) (key : String),
      alGet (keys.foldl (fun out k => alSet out k (F k)) acc) key =
        if key ∈ keys then some (F key) else alGet acc key := by
  induction keys with
  | nil => intro acc key; simp
  | cons k0 rest ih =>
      intro acc key
      have hfold : ((k0 :: rest).foldl (fun out k => alSet out k (F k)) acc) =
          rest.foldl (fun out k => alSet out k (F k)) (alSet acc k0 (F k0)) := by simp
      rw [hfold, ih]
      by_cases hmem : key ∈ rest
      · simp [hmem]
      · by_cases hk : k0 = key
        · subst hk
          simp [hmem, alGet_set_self]
        · have hk' : ¬(key = k0) := fun hcontra => hk hcontra.symm
          simp [hmem, hk', alGet_set_ne _ _ _ _ hk, List.mem_cons]

theorem getMultipleVal_eq_spec (st : SettingsDB) (jid : Option String)
    (defaults : Obj) (key : String) :
    st.getMultipleVal (st.groupCfgOf jid) defaults key = specResult st jid defaults key := by
  unfold SettingsDB.getMultipleVal specResult specResolve SettingsDB.groupCfgOf
  cases jid with
  | none => simp [jsGet, alGet, JVal.isUndefined]
  | some j =>
      by_cases hj : j = ""
      · simp [hj, jsGet, alGet, JVal.isUndefined]
      · simp only [hj, if_false]
        cases halGet : alGet st.groupSettings j with
        | none => simp [jsGet, alGet, JVal.isUndefined, Option.getD]
        | some g => simp [jsGet, Option.getD]

theorem save_of_not_saving (st : SettingsDB) (fs : FS) (h : st.saving = false) :
    st.save fs =
      ({ st with dirty := false, saving := false, pendingSave := false },
       writeAtomic fs st.file (.doc (stringifyDoc st.serialize)), [Act.emit .savedEv]) := by
  unfold SettingsDB.save
  rw [h]
  rfl

theorem alGet_writeAtomic_self (fs : FS) (file : String) (c : Content) :
    alGet (writeAtomic fs file c) file = some c := by
  unfold writeAtomic
  exact alGet_set_self _ _ _

theorem adopt_serialize_snap (stA stB : SettingsDB) (now : String)
    (h : stB.WF = true) : (stA.adopt stB.serialize now).snap = stB.snap := by
  have hparts : wfKeys stB.globalSettings = true ∧ wfKeys stB.groupSettings = true ∧
      (∀ kv ∈ stB.groupSettings, wfKeys kv.2 = true) ∧
      wfKeys stB.updateTimes = true ∧
      (∀ kv ∈ stB.updateTimes, wfKeys kv.2 = true) := by
    have := h
    unfold SettingsDB.WF at this
    simp only [Bool.and_eq_true, List.all_eq_true] at this
    exact ⟨this.1.1.1.1, this.1.1.1.2, fun kv hkv => this.1.1.2 kv hkv,
           this.1.2, fun kv hkv => this.2 kv hkv⟩
  obtain ⟨hg, hgr, hgri, hut, huti⟩ := hparts
  unfold SettingsDB.adopt SettingsDB.serialize SettingsDB.snap
  simp only [Option.getD_some]
  have e1 : fromEntries (fromEntries stB.groupSettings) = stB.groupSettings := by
    rw [fromEntries_of_wf _ hgr, fromEntries_of_wf _ hgr]
  have e2 : stB.updateTimes.map (fun kv => (kv.1, fromEntries kv.2)) = stB.updateTimes :=
    map_fromEntries_of_all_wf _ huti
  have e3 : fromEntries ((fromEntries (stB.updateTimes.map fun kv => (kv.1, fromEntries kv.2))).map
      fun kv => (kv.1, fromEntries kv.2)) = stB.updateTimes := by
    rw [e2, fromEntries_of_wf _ hut, e2, fromEntries_of_wf _ hut]
  simp [e1, e3]

theorem schedSaveCalls_fixpoint (n : Nat) (ws : List Snapshot) (c : Snapshot) :
    schedSaveCalls n ⟨true, true, ws, c⟩ = ⟨true, true, ws, c⟩ := by
  induction n with
  | zero => rfl
  | succ n ih =>
      have : schedSaveCall ⟨true, true, ws, c⟩ = ⟨true, true, ws, c⟩ := rfl
      calc schedSaveCalls (n + 1) ⟨true, true, ws, c⟩
          = schedSaveCalls n (schedSaveCall ⟨true, true, ws, c⟩) := rfl
        _ = ⟨true, true, ws, c⟩ := by rw [this]; exact ih

theorem schedSaveCalls_inflight (n : Nat) (h : 1 ≤ n) (ws : List Snapshot)
    (c : Snapshot) :
    schedSaveCalls n ⟨true, false, ws, c⟩ = ⟨true, true, ws, c⟩ := by
  cases n with
  | zero => exact absurd h (by omega)
  | succ n =>
      have hstep : schedSaveCall ⟨true, false, ws, c⟩ = ⟨true, true, ws, c⟩ := rfl
      calc schedSaveCalls (n + 1) ⟨true, false, ws, c⟩
          = schedSaveCalls n (schedSaveCall ⟨true, false, ws, c⟩) := rfl
        _ = ⟨true, true, ws, c⟩ := by rw [hstep]; exact schedSaveCalls_fixpoint n ws c

/-- C3: for every N ≥ 1, if N save() calls arrive while one physical write
is in flight, then after the in-flight write completes exactly one
additional physical write is performed, capturing the then-current
Snapshot, not N; the pending-save state is the single boolean flag of
`SaveSched`, never a queue. -/
theorem claimC3 (n : Nat) (h : 1 ≤ n) (ws : List Snapshot) (c cNew : Snapshot) :
    schedSaveCalls n ⟨true, false, ws, c⟩ = ⟨true, true, ws, c⟩ ∧
    schedComplete (schedMutate (schedSaveCalls n ⟨true, false, ws, c⟩) cNew) =
      ⟨true, false, cNew :: ws, cNew⟩ := by
  have h1 := schedSaveCalls_inflight n h ws c
  refine ⟨h1, ?_⟩
  rw [h1]
  rfl

/-- Witness for C3 at N = 3 concrete save calls. -/
theorem claimC3_witness :
    1 ≤ 3 ∧
    (schedSaveCalls 3 ⟨true, false, [], Snapshot.mk [] [] []⟩ =
      ⟨true, true, [], Snapshot.mk [] [] []⟩ ∧
     schedComplete (schedMutate (schedSaveCalls 3 ⟨true, false, [], Snapshot.mk [] [] []⟩)
        (Snapshot.mk [("a", JVal.num 1)] [] [])) =
      ⟨true, false, [Snapshot.mk [("a", JVal.num 1)] [] []],
       Snapshot.mk [("a", JVal.num 1)] [] []⟩) :=
  ⟨by omega, claimC3 3 (by omega) [] (Snapshot.mk [] [] []) (Snapshot.mk [("a", JVal.num 1)] [] [])⟩

/-- C10: a two-argument `set(k, v)` call whose key contains `@` is
dispatched to the group branch: it stores `undefined` under
`GroupSettings[k][v]`, raises no error, and leaves `GlobalSettings`
untouched. -/
theorem claimC10 (st : SettingsDB) (k v now : String) (persist : Bool)
    (h : strIncludes k '@' = true) :
    ∃ st1 acts, st.set k (.str v) .undefined now persist = .ok (st1, acts) ∧
      alGet ((alGet st1.groupSettings k).getD []) v = some .undefined ∧
      st1.globalSettings = st.globalSettings := by
  have hjid : isJidStr k = true := by simp [isJidStr, h]
  refine ⟨(st.setGroupPlugin k v .undefined now persist).1,
          (st.setGroupPlugin k v .undefined now persist).2, ?_, ?_, ?_⟩
  · simp [SettingsDB.set, hjid]
  · unfold SettingsDB.setGroupPlugin SettingsDB.setUpdateTime
    simp [alGet_set_self]
  · rfl

/-- Witness for C10 at key `a@b`, plugin name `x`, on a fresh store. -/
theorem claimC10_witness :
    strIncludes "a@b" '@' = true ∧
    (∃ st1 acts, (freshDB "f" "t0").set "a@b" (.str "x") .undefined "t1" true = .ok (st1, acts) ∧
      alGet ((alGet st1.groupSettings "a@b").getD []) "x" = some .undefined ∧
      st1.globalSettings = (freshDB "f" "t0").globalSettings) :=
  ⟨by decide, claimC10 (freshDB "f" "t0") "a@b" "x" "t1" true (by decide)⟩

theorem loadLocalFile_missing (st : SettingsDB) (fs : FS) (now : String) (ms : Nat)
    (h2 : alGet fs st.file = none) (h3 : st.saving = false) :
    st.loadLocalFile fs now ms =
      ({ st with globalSettings := [], groupSettings := [], updateTimes := [],
                 dirty := false, saving := false, pendingSave := false },
       writeAtomic fs st.file (.doc ⟨some [], some [], some []⟩), true) := by
  unfold SettingsDB.loadLocalFile SettingsDB.writeInitialFile
  rw [h2]
  have hsv : ({ st with globalSettings := [], groupSettings := [], updateTimes := [] } : SettingsDB).saving = false := h3
  change ((({ st with globalSettings := [], groupSettings := [], updateTimes := [] } : SettingsDB).save fs).1,
      (({ st with globalSettings := [], groupSettings := [], updateTimes := [] } : SettingsDB).save fs).2.1, true) = _
  rw [save_of_not_saving _ _ hsv]
  rfl

/-- C7: with no file at the configured path, `load()` synthesizes an empty
Snapshot, reports success, and persists the empty document at that path. -/
theorem claimC7 (st : SettingsDB) (fs : FS) (now : String) (ms : Nat)
    (h1 : st.useDb = false) (h2 : alGet fs st.file = none) (h3 : st.saving = false) :
    (st.load fs none now ms).2.2 = true ∧
    (st.load fs none now ms).1.snap = ⟨[], [], []⟩ ∧
    alGet (st.load fs none now ms).2.1 st.file =
      some (.doc ⟨some [], some [], some []⟩) := by
  unfold SettingsDB.load
  rw [h1]
  simp only [Bool.false_eq_true, if_false]
  rw [loadLocalFile_missing st fs now ms h2 h3]
  refine ⟨rfl, rfl, ?_⟩
  exact alGet_writeAtomic_self _ _ _

/-- Witness for C7: an empty filesystem, a fresh store carrying stale
in-memory entries. -/
theorem claimC7_witness :
    ({ freshDB "f" "t0" with globalSettings := [("a", JVal.num 2)] } : SettingsDB).useDb = false ∧
    alGet ([] : FS) ({ freshDB "f" "t0" with globalSettings := [("a", JVal.num 2)] } : SettingsDB).file = none ∧
    ({ freshDB "f" "t0" with globalSettings := [("a", JVal.num 2)] } : SettingsDB).saving = false ∧
    ((({ freshDB "f" "t0" with globalSettings := [("a", JVal.num 2)] } : SettingsDB).load [] none "t1" 9).2.2 = true ∧
     (({ freshDB "f" "t0" with globalSettings := [("a", JVal.num 2)] } : SettingsDB).load [] none "t1" 9).1.snap = ⟨[], [], []⟩ ∧
     alGet (({ freshDB "f" "t0" with globalSettings := [("a", JVal.num 2)] } : SettingsDB).load [] none "t1" 9).2.1
        ({ freshDB "f" "t0" with globalSettings := [("a", JVal.num 2)] } : SettingsDB).file =
       some (.doc ⟨some [], some [], some []⟩)) :=
  ⟨rfl, rfl, rfl,
   claimC7 { freshDB "f" "t0" with globalSettings := [("a", JVal.num 2)] } [] "t1" 9 rfl rfl rfl⟩

/-- C6: a connection descriptor whose scheme is not one of the recognized
ones makes `_initDbClients` raise the unsupported-protocol error at first
use, and `load()` against such a backend reports initialization failure;
the scheme is never silently accepted. -/
theorem claimC6 (proto : String) (h : proto ∉ recognizedProtos)
    (st : SettingsDB) (fs : FS) (remote : Option Doc) (now : String) (ms : Nat)
    (h2 : st.useDb = true) (h3 : st.dbProto = some proto) :
    initDbClients proto = .error ("Unsupported databaseUrl protocol: " ++ proto) ∧
    (st.load fs remote now ms).2.2 = false := by
  have hne : ¬(proto = "postgres") ∧ ¬(proto = "postgresql") ∧ ¬(proto = "mongodb") ∧
      ¬(proto = "mysql") ∧ ¬(proto = "file") ∧ ¬(proto = "http") ∧ ¬(proto = "https") := by
    simp only [recognizedProtos, List.mem_cons, List.not_mem_nil, or_false] at h
    push_neg at h
    exact ⟨h.1, h.2.1, h.2.2.1, h.2.2.2.1, h.2.2.2.2.1, h.2.2.2.2.2.1, h.2.2.2.2.2.2⟩
  obtain ⟨n1, n2, n3, n4, n5, n6, n7⟩ := hne
  have herr : initDbClients proto = .error ("Unsupported databaseUrl protocol: " ++ proto) := by
    simp [initDbClients, n1, n2, n3, n4, n5, n6, n7]
  refine ⟨herr, ?_⟩
  unfold SettingsDB.load
  rw [h2, h3]
  simp only [if_true, Option.getD_some]
  rw [herr]

/-- Witness for C6 at the unrecognized scheme `redis`. -/
theorem claimC6_witness :
    ("redis" ∉ recognizedProtos) ∧
    ({ freshDB "f" "t0" with useDb := true, dbProto := some "redis" } : SettingsDB).useDb = true ∧
    ({ freshDB "f" "t0" with useDb := true, dbProto := some "redis" } : SettingsDB).dbProto = some "redis" ∧
    (initDbClients "redis" = .error ("Unsupported databaseUrl protocol: " ++ "redis") ∧
     (({ freshDB "f" "t0" with useDb := true, dbProto := some "redis" } : SettingsDB).load [] none "t1" 9).2.2 = false) :=
  ⟨by decide, rfl, rfl,
   claimC6 "redis" (by decide) { freshDB "f" "t0" with useDb := true, dbProto := some "redis" }
     [] none "t1" 9 rfl rfl⟩

/-- C2 (amended): for every scope — a falsy scope (absent or the empty
string) carrying no group layer — every key list and every defaults
object, `getMultiple` resolves each requested key to the group-scope value
if present, else the global value if present, else the default; whenever
the default at a key is boolean-typed the result there is a boolean, and
the strings true/1/yes/on in any letter case resolve to true. -/
theorem claimC2_amended (st : SettingsDB) (jid : Option String) (keys : List String)
    (defaults : Obj) (key : String) (hmem : key ∈ keys) :
    jsGet (st.getMultiple jid keys defaults) key = specResult st jid defaults key ∧
    (∀ b, jsGet defaults key = .bool b →
      ∃ bb, jsGet (st.getMultiple jid keys defaults) key = .bool bb) ∧
    (∀ b s, jsGet defaults key = .bool b → specResolve st jid defaults key = .str s →
      (["true", "1", "yes", "on"]).contains (strToLower s) = true →
      jsGet (st.getMultiple jid keys defaults) key = .bool true) := by
  have hlook : alGet (st.getMultiple jid keys defaults) key =
      some (st.getMultipleVal (st.groupCfgOf jid) defaults key) := by
    unfold SettingsDB.getMultiple
    rw [foldl_alSet_lookup]
    simp [hmem]
  have hmain : jsGet (st.getMultiple jid keys defaults) key =
      specResult st jid defaults key := by
    rw [jsGet, hlook, Option.getD_some, getMultipleVal_eq_spec]
  refine ⟨hmain, ?_, ?_⟩
  · intro b hb
    rw [hmain]
    unfold specResult
    rw [hb]
    exact ⟨_, rfl⟩
  · intro b s hb hs hcontains
    rw [hmain]
    unfold specResult
    rw [hb, hs]
    have hc2 : JVal.toBool (JVal.str s) = true := by
      simp only [JVal.toBool]
      simpa using hcontains
    simp [hc2]

/-- Witness for C2 on a store whose global value for `autoread` is the
string `YES` and whose default is boolean: the result is `true`. -/
theorem claimC2_witness :
    ("autoread" ∈ ["autoread"]) ∧
    (jsGet (({ freshDB "f" "t0" with globalSettings := [("autoread", JVal.str "YES")] } : SettingsDB).getMultiple
        none ["autoread"] [("autoread", JVal.bool false)]) "autoread" =
      specResult { freshDB "f" "t0" with globalSettings := [("autoread", JVal.str "YES")] }
        none [("autoread", JVal.bool false)] "autoread" ∧
     (∀ b, jsGet [("autoread", JVal.bool false)] "autoread" = .bool b →
       ∃ bb, jsGet (({ freshDB "f" "t0" with globalSettings := [("autoread", JVal.str "YES")] } : SettingsDB).getMultiple
          none ["autoread"] [("autoread", JVal.bool false)]) "autoread" = .bool bb) ∧
     (∀ b s, jsGet [("autoread", JVal.bool false)] "autoread" = .bool b →
       specResolve { freshDB "f" "t0" with globalSettings := [("autoread", JVal.str "YES")] }
          none [("autoread", JVal.bool false)] "autoread" = .str s →
       (["true", "1", "yes", "on"]).contains (strToLower s) = true →
       jsGet (({ freshDB "f" "t0" with globalSettings := [("autoread", JVal.str "YES")] } : SettingsDB).getMultiple
          none ["autoread"] [("autoread", JVal.bool false)]) "autoread" = .bool true)) :=
  ⟨by decide,
   claimC2_amended { freshDB "f" "t0" with globalSettings := [("autoread", JVal.str "YES")] }
     none ["autoread"] [("autoread", JVal.bool false)] "autoread" (by decide)⟩

/-- Counterexample to C2 as stated: under the empty-string scope the
group-scope value `"g"` for key `k` is present, yet `getMultiple` skips the
group layer (an empty-string jid is falsy) and yields `undefined`. -/
theorem claimC2_cex :
    jsGet (({ freshDB "f" "t0" with groupSettings := [("", [("k", JVal.str "g")])] } : SettingsDB).getMultiple
      (some "") ["k"] []) "k" = .undefined ∧
    jsGet ((alGet ({ freshDB "f" "t0" with groupSettings := [("", [("k", JVal.str "g")])] } : SettingsDB).groupSettings
      "").getD []) "k" = .str "g" ∧
    JVal.isUndefined (.str "g") = false :=
  ⟨rfl, rfl, rfl⟩

mutual
theorem stringifyVal_of_noUndefined : ∀ v : JVal, valNoUndefined v = true → stringifyVal v = v
  | .obj fields, h => by
      simp only [valNoUndefined] at h
      simp only [stringifyVal]
      rw [stringifyObj_of_noUndefined fields h]
  | .undefined, _ => rfl
  | .null, _ => rfl
  | .bool _, _ => rfl
  | .num _, _ => rfl
  | .str _, _ => rfl
theorem stringifyObj_of_noUndefined : ∀ l : Obj, objNoUndefined l = true → stringifyObj l = l
  | [], _ => rfl
  | (k, v) :: rest, h => by
      simp only [objNoUndefined, Bool.and_eq_true, Bool.not_eq_true'] at h
      simp only [stringifyObj, h.1.1, Bool.false_eq_true, if_false]
      rw [stringifyVal_of_noUndefined v h.1.2, stringifyObj_of_noUndefined rest h.2]
end

theorem map_stringifyObj_of_all (l : List (String × Obj))
    (h : ∀ kv ∈ l, objNoUndefined kv.2 = true) :
    (l.map fun kv => (kv.1, stringifyObj kv.2)) = l := by
  induction l with
  | nil => rfl
  | cons kv rest ih =>
      obtain ⟨k0, v0⟩ := kv
      have h0 := stringifyObj_of_noUndefined v0 (h (k0, v0) (by simp))
      have hrest := ih fun kv hkv => h kv (List.mem_cons_of_mem _ hkv)
      simp [h0, hrest]

theorem stringifyDoc_serialize (st : SettingsDB) (h1 : st.WF = true)
    (h2 : st.noUndefined = true) : stringifyDoc st.serialize = st.serialize := by
  have hgr : wfKeys st.groupSettings = true := by
    have := h1
    unfold SettingsDB.WF at this
    simp only [Bool.and_eq_true] at this
    exact this.1.1.1.2
  have hnu : objNoUndefined st.globalSettings = true ∧
      ∀ kv ∈ st.groupSettings, objNoUndefined kv.2 = true := by
    have := h2
    unfold SettingsDB.noUndefined at this
    simp only [Bool.and_eq_true, List.all_eq_true] at this
    exact ⟨this.1, fun kv hkv => this.2 kv hkv⟩
  unfold stringifyDoc SettingsDB.serialize
  rw [fromEntries_of_wf _ hgr]
  simp [stringifyObj_of_noUndefined _ hnu.1, map_stringifyObj_of_all _ hnu.2]

/-- C5 (amended): on the local-file backend, for every store whose maps
satisfy the unique-key invariant and whose stored values contain no
undefined-valued properties, `save()` followed by `load()` yields an
in-memory Snapshot deep-equal to the Snapshot prior to `save()`.  (An
undefined-valued property — storable through the public API, cf. C10 — is
dropped by `JSON.stringify` during the physical write, so the round trip
reproduces the Snapshot only up to such properties.) -/
theorem claimC5_amended (st : SettingsDB) (fs : FS) (now : String) (ms : Nat)
    (h1 : st.useDb = false) (h2 : st.saving = false) (h3 : st.WF = true)
    (h4 : st.noUndefined = true) :
    ((st.save fs).1.load (st.save fs).2.1 none now ms).2.2 = true ∧
    ((st.save fs).1.load (st.save fs).2.1 none now ms).1.snap = st.snap := by
  rw [save_of_not_saving st fs h2, stringifyDoc_serialize st h3 h4]
  unfold SettingsDB.load
  have hu : ({ st with dirty := false, saving := false, pendingSave := false } : SettingsDB).useDb = false := h1
  rw [hu]
  simp only [Bool.false_eq_true, if_false]
  unfold SettingsDB.loadLocalFile
  have hf : alGet (writeAtomic fs st.file (Content.doc st.serialize))
      ({ st with dirty := false, saving := false, pendingSave := false } : SettingsDB).file =
      some (Content.doc st.serialize) := alGet_writeAtomic_self fs st.file _
  rw [hf]
  exact ⟨rfl, adopt_serialize_snap _ st now h3⟩

/-- A concrete store with one global key, one group, and one update
timestamp, none of the values undefined, used to witness the round-trip
property. -/
def roundTripStore : SettingsDB :=
  { freshDB "f" "t0" with
      globalSettings := [("a", JVal.num 1)]
      groupSettings := [("g@g.us", [("p", JVal.bool true)])]
      updateTimes := [("global", [("a", "t1")])]
      dirty := true }

/-- Witness for C5 on a store with one global key, one group, and one
update timestamp. -/
theorem claimC5_witness :
    roundTripStore.useDb = false ∧
    roundTripStore.saving = false ∧
    roundTripStore.WF = true ∧
    roundTripStore.noUndefined = true ∧
    (((roundTripStore.save []).1.load (roundTripStore.save []).2.1 none "t2" 3).2.2 = true ∧
     ((roundTripStore.save []).1.load (roundTripStore.save []).2.1 none "t2" 3).1.snap =
       roundTripStore.snap) :=
  ⟨rfl, rfl, by decide, by decide,
   claimC5_amended roundTripStore [] "t2" 3 rfl rfl (by decide) (by decide)⟩

/-- A store holding an undefined-valued group property, reached by a single
`setGroupPlugin` call (the state the generic two-argument `set` produces
for a jid-looking key, cf. C10). -/
def lossyStore : SettingsDB :=
  ((freshDB "f" "t0").setGroupPlugin "a@b" "x" .undefined "t1" false).1

/-- Counterexample to C5 as stated: a Snapshot holding an undefined-valued
property fails the round trip — the physical write goes through
`JSON.stringify`, which drops the property, so the loaded GroupSettings
`[("a@b", [])]` are not deep-equal to the pre-save
`[("a@b", [("x", undefined)])]`. -/
theorem claimC5_cex :
    lossyStore.useDb = false ∧
    lossyStore.saving = false ∧
    lossyStore.WF = true ∧
    lossyStore.snap.groupSettings = [("a@b", [("x", JVal.undefined)])] ∧
    ((lossyStore.save []).1.load (lossyStore.save []).2.1 none "t2" 3).2.2 = true ∧
    ((lossyStore.save []).1.load (lossyStore.save []).2.1 none "t2" 3).1.snap.groupSettings =
      [("a@b", [])] ∧
    ([("a@b", ([] : Obj))] : List (String × Obj)) ≠ [("a@b", [("x", JVal.undefined)])] := by
  refine ⟨rfl, rfl, by decide, rfl, rfl, rfl, ?_⟩
  simp

/-- C4 (amended): loading an unparseable local file reports failure, leaves
the whole in-memory state untouched, and copies the file to exactly one new
backup path — the original path suffixed with the corruption marker and the
millisecond timestamp — distinct from the original; a prior backup is not
overwritten provided no file already sits at that timestamped path. -/
theorem claimC4_amended (st : SettingsDB) (fs : FS) (s now : String) (ms : Nat)
    (h1 : st.useDb = false)
    (h2 : alGet fs st.file = some (.invalid s))
    (h3 : alHas fs (st.file ++ ".corrupt." ++ toString ms) = false) :
    st.load fs none now ms =
      (st, fs ++ [(st.file ++ ".corrupt." ++ toString ms, .invalid s)], false) ∧
    st.file ++ ".corrupt." ++ toString ms ≠ st.file := by
  constructor
  · unfold SettingsDB.load
    rw [h1]
    simp only [Bool.false_eq_true, if_false]
    unfold SettingsDB.loadLocalFile
    rw [h2]
    unfold backupCorrupt
    rw [h2]
    change (st, alSet fs (st.file ++ ".corrupt." ++ toString ms) (Content.invalid s), false) = _
    rw [alSet_of_not_has _ _ _ h3]
  · intro hcontra
    have hlen := congrArg String.length hcontra
    rw [String.length_append, String.length_append] at hlen
    have h9 : (".corrupt." : String).length = 9 := rfl
    rw [h9] at hlen
    omega

/-- Witness for C4 on a one-file filesystem holding unparseable text. -/
theorem claimC4_witness :
    (freshDB "f" "t0").useDb = false ∧
    alGet ([("f", Content.invalid "oops")] : FS) (freshDB "f" "t0").file =
      some (.invalid "oops") ∧
    alHas ([("f", Content.invalid "oops")] : FS)
      ((freshDB "f" "t0").file ++ ".corrupt." ++ toString 7) = false ∧
    ((freshDB "f" "t0").load [("f", Content.invalid "oops")] none "t1" 7 =
      (freshDB "f" "t0",
       [("f", Content.invalid "oops")] ++
         [((freshDB "f" "t0").file ++ ".corrupt." ++ toString 7, .invalid "oops")],
       false) ∧
     (freshDB "f" "t0").file ++ ".corrupt." ++ toString 7 ≠ (freshDB "f" "t0").file) :=
  ⟨rfl, rfl, rfl, claimC4_amended (freshDB "f" "t0") [("f", Content.invalid "oops")]
    "oops" "t1" 7 rfl rfl rfl⟩

/-- Counterexample to C4 as stated: two corruption backups taken at the
same millisecond timestamp share the backup path, so the second `load()`
overwrites the prior backup (`copyFile` replaces the destination). -/
theorem claimC4_cex :
    alGet ([("f", Content.invalid "bad"), ("f.corrupt.5", Content.invalid "old")] : FS)
      ("f" ++ ".corrupt." ++ toString 5) = some (.invalid "old") ∧
    alGet ((freshDB "f" "t0").load
        [("f", Content.invalid "bad"), ("f.corrupt.5", Content.invalid "old")] none "t1" 5).2.1
      ("f" ++ ".corrupt." ++ toString 5) = some (.invalid "bad") ∧
    ((freshDB "f" "t0").load
        [("f", Content.invalid "bad"), ("f.corrupt.5", Content.invalid "old")] none "t1" 5).2.2 = false ∧
    ("bad" : String) ≠ "old" :=
  ⟨rfl, rfl, rfl, by decide⟩

/-- C9 (amended): every mutating Config Store call sets the dirty flag;
the flag transitions to false on the success of a physical write or on a
successful load (which adopts a Snapshot wholesale, without any write); a
save call skipped because one is in flight and a failed load both leave it
unchanged. -/
theorem claimC9_amended :
    (∀ (st : SettingsDB) (k : String) (v : JVal) (now : String) (p : Bool),
      (st.setGlobal k v now p).1.dirty = true) ∧
    (∀ (st : SettingsDB) (jid k : String) (v : JVal) (now : String) (p : Bool),
      (st.setGroupPlugin jid k v now p).1.dirty = true) ∧
    (∀ (st : SettingsDB) (k now : String) (p : Bool),
      (st.toggleGlobal k now p).1.1.dirty = true) ∧
    (∀ (st : SettingsDB) (jid k now : String) (p : Bool),
      (st.toggleGroupPlugin jid k now p).1.1.dirty = true) ∧
    (∀ (st : SettingsDB) (jid k : String) (cf : Obj) (now : String) (p : Bool),
      ∃ r, st.setGroupPluginConfig jid k (.obj cf) now p = .ok r ∧ r.1.1.dirty = true) ∧
    (∀ (st : SettingsDB) (jid : String) (p : Bool),
      (st.deleteGroup jid p).1.1.dirty = true) ∧
    (∀ (st : SettingsDB) (fs : FS), st.saving = false → (st.save fs).1.dirty = false) ∧
    (∀ (st : SettingsDB) (fs : FS), st.saving = true →
      (st.save fs).1.dirty = st.dirty ∧ (st.save fs).2.1 = fs) ∧
    (∀ (st : SettingsDB) (fs : FS) (d : Doc) (now : String) (ms : Nat),
      st.useDb = false → alGet fs st.file = some (.doc d) →
      (st.load fs none now ms).1.dirty = false ∧ (st.load fs none now ms).2.1 = fs) ∧
    (∀ (st : SettingsDB) (fs : FS) (s now : String) (ms : Nat),
      st.useDb = false → alGet fs st.file = some (.invalid s) →
      (st.load fs none now ms).1.dirty = st.dirty) := by
  refine ⟨fun st k v now p => rfl, fun st jid k v now p => rfl,
          fun st k now p => rfl, fun st jid k now p => rfl,
          fun st jid k cf now p => ⟨_, rfl, rfl⟩,
          fun st jid p => rfl, ?_, ?_, ?_, ?_⟩
  · intro st fs h
    rw [save_of_not_saving st fs h]
  · intro st fs h
    unfold SettingsDB.save
    rw [h]
    exact ⟨rfl, rfl⟩
  · intro st fs d now ms h1 h2
    unfold SettingsDB.load
    rw [h1]
    simp only [Bool.false_eq_true, if_false]
    unfold SettingsDB.loadLocalFile
    rw [h2]
    exact ⟨rfl, rfl⟩
  · intro st fs s now ms h1 h2
    unfold SettingsDB.load
    rw [h1]
    simp only [Bool.false_eq_true, if_false]
    unfold SettingsDB.loadLocalFile
    rw [h2]

/-- Witness for C9: a mutation marks dirty; a physical write and a
successful load clear it; a skipped save and a failed load leave it. -/
theorem claimC9_witness :
    ((freshDB "f" "t0").setGlobal "a" (JVal.num 1) "t1" false).1.dirty = true ∧
    (freshDB "f" "t0").saving = false ∧
    ((freshDB "f" "t0").save []).1.dirty = false ∧
    ({ freshDB "f" "t0" with saving := true, dirty := true } : SettingsDB).saving = true ∧
    (({ freshDB "f" "t0" with saving := true, dirty := true } : SettingsDB).save []).1.dirty =
      ({ freshDB "f" "t0" with saving := true, dirty := true } : SettingsDB).dirty ∧
    ({ freshDB "f" "t0" with dirty := true } : SettingsDB).useDb = false ∧
    alGet ([("f", Content.invalid "x")] : FS)
      ({ freshDB "f" "t0" with dirty := true } : SettingsDB).file = some (.invalid "x") ∧
    (({ freshDB "f" "t0" with dirty := true } : SettingsDB).load
        [("f", Content.invalid "x")] none "t1" 0).1.dirty =
      ({ freshDB "f" "t0" with dirty := true } : SettingsDB).dirty := by
  obtain ⟨p1, _, _, _, _, _, p7, p8, _, p10⟩ := claimC9_amended
  exact ⟨p1 (freshDB "f" "t0") "a" (JVal.num 1) "t1" false, rfl,
         p7 (freshDB "f" "t0") [] rfl, rfl,
         (p8 { freshDB "f" "t0" with saving := true, dirty := true } [] rfl).1, rfl, rfl,
         p10 { freshDB "f" "t0" with dirty := true } [("f", Content.invalid "x")] "x" "t1" 0 rfl rfl⟩

/-- Counterexample to C9 as stated: a successful `load()` of a parseable
file clears a set dirty flag while performing no physical write (the
filesystem is returned unchanged). -/
theorem claimC9_cex :
    ({ freshDB "f" "t0" with dirty := true } : SettingsDB).dirty = true ∧
    (({ freshDB "f" "t0" with dirty := true } : SettingsDB).load
        [("f", Content.doc ⟨some [], some [], some []⟩)] none "t1" 0).1.dirty = false ∧
    (({ freshDB "f" "t0" with dirty := true } : SettingsDB).load
        [("f", Content.doc ⟨some [], some [], some []⟩)] none "t1" 0).2.1 =
      [("f", Content.doc ⟨some [], some [], some []⟩)] ∧
    (({ freshDB "f" "t0" with dirty := true } : SettingsDB).load
        [("f", Content.doc ⟨some [], some [], some []⟩)] none "t1" 0).2.2 = true :=
  ⟨rfl, rfl, rfl, rfl⟩

/-- C1 (amended): each of the five set/toggle operations synchronously
updates the Snapshot at the touched (scope, key), stamps the corresponding
UpdateTimestamps entry, sets the dirty flag, emits an `update` event, and
triggers persistence exactly when the per-call persist option is set;
`deleteGroup` synchronously removes the scope from the Snapshot, removes
(rather than updates) the scope's UpdateTimestamps entry, sets the dirty
flag, emits a `deleteGroup` event — not an `update` event — and likewise
triggers persistence exactly when the persist option is set. -/
theorem claimC1_amended :
    (∀ (st : SettingsDB) (k : String) (v : JVal) (now : String) (p : Bool),
      alGet (st.setGlobal k v now p).1.globalSettings k = some v ∧
      alGet ((alGet (st.setGlobal k v now p).1.updateTimes "global").getD []) k = some now ∧
      (st.setGlobal k v now p).1.dirty = true ∧
      (st.setGlobal k v now p).2 =
        [Act.emit (.updateGlobal k v)] ++ if p then [Act.saveReq] else []) ∧
    (∀ (st : SettingsDB) (jid k : String) (v : JVal) (now : String) (p : Bool),
      alGet ((alGet (st.setGroupPlugin jid k v now p).1.groupSettings jid).getD []) k = some v ∧
      alGet ((alGet (st.setGroupPlugin jid k v now p).1.updateTimes
        (if jid = "" then "global" else jid)).getD []) k = some now ∧
      (st.setGroupPlugin jid k v now p).1.dirty = true ∧
      (st.setGroupPlugin jid k v now p).2 =
        [Act.emit (.updateGroup jid k v)] ++ if p then [Act.saveReq] else []) ∧
    (∀ (st : SettingsDB) (k now : String) (p : Bool),
      (st.toggleGlobal k now p).2 = !truthy (jsGet st.globalSettings k) ∧
      alGet (st.toggleGlobal k now p).1.1.globalSettings k =
        some (.bool (!truthy (jsGet st.globalSettings k))) ∧
      alGet ((alGet (st.toggleGlobal k now p).1.1.updateTimes "global").getD []) k = some now ∧
      (st.toggleGlobal k now p).1.1.dirty = true ∧
      (st.toggleGlobal k now p).1.2 =
        [Act.emit (.updateGlobal k (.bool (!truthy (jsGet st.globalSettings k))))] ++
          if p then [Act.saveReq] else []) ∧
    (∀ (st : SettingsDB) (jid k now : String) (p : Bool),
      (st.toggleGroupPlugin jid k now p).2 =
        !truthy (jsGet ((alGet st.groupSettings jid).getD []) k) ∧
      alGet ((alGet (st.toggleGroupPlugin jid k now p).1.1.groupSettings jid).getD []) k =
        some (.bool (!truthy (jsGet ((alGet st.groupSettings jid).getD []) k))) ∧
      alGet ((alGet (st.toggleGroupPlugin jid k now p).1.1.updateTimes
        (if jid = "" then "global" else jid)).getD []) k = some now ∧
      (st.toggleGroupPlugin jid k now p).1.1.dirty = true ∧
      (st.toggleGroupPlugin jid k now p).1.2 =
        [Act.emit (.updateGroup jid k (.bool (!truthy (jsGet ((alGet st.groupSettings jid).getD []) k))))] ++
          if p then [Act.saveReq] else []) ∧
    (∀ (st : SettingsDB) (jid k : String) (cf : Obj) (now : String) (p : Bool),
      ∃ st1 m, st.setGroupPluginConfig jid k (.obj cf) now p =
          .ok ((st1, [Act.emit (.updateGroup jid k m)] ++ if p then [Act.saveReq] else []), m) ∧
        alGet ((alGet st1.groupSettings jid).getD []) k = some m ∧
        alGet ((alGet st1.updateTimes (if jid = "" then "global" else jid)).getD []) k = some now ∧
        st1.dirty = true) ∧
    (∀ (st : SettingsDB) (jid : String) (p : Bool),
      (st.deleteGroup jid p).1.1.groupSettings = alDel st.groupSettings jid ∧
      (st.deleteGroup jid p).1.1.updateTimes = alDel st.updateTimes jid ∧
      (st.deleteGroup jid p).1.1.dirty = true ∧
      (st.deleteGroup jid p).1.2 =
        [Act.emit (.deleteGroupEv jid)] ++ (if p then [Act.saveReq] else []) ∧
      hasUpdateEvent (st.deleteGroup jid p).1.2 = false ∧
      (st.deleteGroup jid p).2 = alHas st.groupSettings jid) := by
  refine ⟨?_, ?_, ?_, ?_, ?_, ?_⟩
  · intro st k v now p
    refine ⟨?_, ?_, rfl, rfl⟩
    · unfold SettingsDB.setGlobal SettingsDB.setUpdateTime
      simp [alGet_set_self]
    · unfold SettingsDB.setGlobal SettingsDB.setUpdateTime
      simp [alGet_set_self]
  · intro st jid k v now p
    refine ⟨?_, ?_, rfl, rfl⟩
    · unfold SettingsDB.setGroupPlugin SettingsDB.setUpdateTime
      simp [alGet_set_self]
    · unfold SettingsDB.setGroupPlugin SettingsDB.setUpdateTime
      simp [alGet_set_self]
  · intro st k now p
    refine ⟨rfl, ?_, ?_, rfl, rfl⟩
    · unfold SettingsDB.toggleGlobal SettingsDB.setGlobal SettingsDB.setUpdateTime
      simp [alGet_set_self]
    · unfold SettingsDB.toggleGlobal SettingsDB.setGlobal SettingsDB.setUpdateTime
      simp [alGet_set_self]
  · intro st jid k now p
    refine ⟨rfl, ?_, ?_, rfl, rfl⟩
    · unfold SettingsDB.toggleGroupPlugin SettingsDB.setUpdateTime
      simp [alGet_set_self]
    · unfold SettingsDB.toggleGroupPlugin SettingsDB.setUpdateTime
      simp [alGet_set_self]
  · intro st jid k cf now p
    refine ⟨_, _, rfl, ?_, ?_, rfl⟩
    · unfold SettingsDB.setUpdateTime
      simp [alGet_set_self]
    · unfold SettingsDB.setUpdateTime
      simp [alGet_set_self]
  · intro st jid p
    refine ⟨rfl, rfl, rfl, rfl, ?_, rfl⟩
    cases p <;> rfl

/-- Counterexample to C1 as stated: `deleteGroup` on a fresh store emits a
`deleteGroup` event and a persistence request, and no `update` event at
all. -/
theorem claimC1_cex :
    ((freshDB "f" "t0").deleteGroup "123@g.us" true).1.2 =
      [Act.emit (.deleteGroupEv "123@g.us"), Act.saveReq] ∧
    hasUpdateEvent ((freshDB "f" "t0").deleteGroup "123@g.us" true).1.2 = false :=
  ⟨rfl, rfl⟩

theorem applyCall_snap_congr (st st' : SettingsDB) (c : MCall) (t : String)
    (h : st.snap = st'.snap) : (applyCall st c t).snap = (applyCall st' c t).snap := by
  have h1 : st.globalSettings = st'.globalSettings := congrArg Snapshot.globalSettings h
  have h2 : st.groupSettings = st'.groupSettings := congrArg Snapshot.groupSettings h
  have h3 : st.updateTimes = st'.updateTimes := congrArg Snapshot.updateTimes h
  cases c with
  | mSetGlobal k v p =>
      simp [applyCall, SettingsDB.setGlobal, SettingsDB.setUpdateTime, SettingsDB.snap, h1, h2, h3]
  | mSetGroupPlugin jid k v p =>
      simp [applyCall, SettingsDB.setGroupPlugin, SettingsDB.setUpdateTime, SettingsDB.snap, h1, h2, h3]
  | mSetGroupPluginConfig jid k cfg p =>
      cases cfg <;>
        simp [applyCall, SettingsDB.setGroupPluginConfig, SettingsDB.setUpdateTime,
          SettingsDB.snap, h1, h2, h3]
  | mToggleGlobal k p =>
      simp [applyCall, SettingsDB.toggleGlobal, SettingsDB.setGlobal, SettingsDB.setUpdateTime,
        SettingsDB.snap, h1, h2, h3]
  | mToggleGroupPlugin jid k p =>
      simp [applyCall, SettingsDB.toggleGroupPlugin, SettingsDB.setUpdateTime,
        SettingsDB.snap, h1, h2, h3]
  | mDeleteGroup jid p =>
      simp [applyCall, SettingsDB.deleteGroup, SettingsDB.snap, h1, h2, h3]

theorem applyCall_vals_congr (st st' : SettingsDB) (c : MCall) (t t' : String)
    (h1 : st.globalSettings = st'.globalSettings)
    (h2 : st.groupSettings = st'.groupSettings) :
    (applyCall st c t).globalSettings = (applyCall st' c t').globalSettings ∧
    (applyCall st c t).groupSettings = (applyCall st' c t').groupSettings := by
  cases c with
  | mSetGlobal k v p =>
      simp [applyCall, SettingsDB.setGlobal, SettingsDB.setUpdateTime, h1, h2]
  | mSetGroupPlugin jid k v p =>
      simp [applyCall, SettingsDB.setGroupPlugin, SettingsDB.setUpdateTime, h1, h2]
  | mSetGroupPluginConfig jid k cfg p =>
      cases cfg <;>
        simp [applyCall, SettingsDB.setGroupPluginConfig, SettingsDB.setUpdateTime, h1, h2]
  | mToggleGlobal k p =>
      simp [applyCall, SettingsDB.toggleGlobal, SettingsDB.setGlobal, SettingsDB.setUpdateTime, h1, h2]
  | mToggleGroupPlugin jid k p =>
      simp [applyCall, SettingsDB.toggleGroupPlugin, SettingsDB.setUpdateTime, h1, h2]
  | mDeleteGroup jid p =>
      simp [applyCall, SettingsDB.deleteGroup, h1, h2]

theorem replay_snap_congr (seq : List (MCall × String)) :
    ∀ st st' : SettingsDB, st.snap = st'.snap →
    (replay st seq).snap = (replay st' seq).snap := by
  induction seq with
  | nil => intro st st' h; exact h
  | cons ct rest ih =>
      intro st st' h
      obtain ⟨c, t⟩ := ct
      exact ih _ _ (applyCall_snap_congr st st' c t h)

theorem replay_vals_congr (seq : List (MCall × String)) :
    ∀ (seq' : List (MCall × String)), seq.map Prod.fst = seq'.map Prod.fst →
    ∀ st st' : SettingsDB,
      st.globalSettings = st'.globalSettings → st.groupSettings = st'.groupSettings →
    (replay st seq).globalSettings = (replay st' seq').globalSettings ∧
    (replay st seq).groupSettings = (replay st' seq').groupSettings := by
  induction seq with
  | nil =>
      intro seq' h st st' hg hgr
      cases seq' with
      | nil => exact ⟨hg, hgr⟩
      | cons _ _ => simp at h
  | cons ct rest ih =>
      intro seq' h st st' hg hgr
      cases seq' with
      | nil => simp at h
      | cons ct' rest' =>
          obtain ⟨c, t⟩ := ct
          obtain ⟨c', t'⟩ := ct'
          simp only [List.map_cons, List.cons.injEq] at h
          obtain ⟨hc, hrest⟩ := h
          cases hc
          have hstep := applyCall_vals_congr st st' c t t' hg hgr
          exact ih rest' hrest _ _ hstep.1 hstep.2

/-- C8 (amended): replaying a mutation-call sequence against any two fresh
stores yields deep-equal GlobalSettings and GroupSettings regardless of the
wall-clock times observed at each call, and a fully deep-equal Snapshot —
UpdateTimestamps included — exactly when the observed wall-clock times of
the two replays also coincide. -/
theorem claimC8_amended (f g s0 s1 : String) (seq seq' : List (MCall × String))
    (h : seq.map Prod.fst = seq'.map Prod.fst) :
    (replay (freshDB f s0) seq).globalSettings =
      (replay (freshDB g s1) seq').globalSettings ∧
    (replay (freshDB f s0) seq).groupSettings =
      (replay (freshDB g s1) seq').groupSettings ∧
    (seq = seq' →
      (replay (freshDB f s0) seq).snap = (replay (freshDB g s1) seq').snap) := by
  refine ⟨(replay_vals_congr seq seq' h (freshDB f s0) (freshDB g s1) rfl rfl).1,
          (replay_vals_congr seq seq' h (freshDB f s0) (freshDB g s1) rfl rfl).2, ?_⟩
  intro he
  cases he
  exact replay_snap_congr seq _ _ rfl

/-- Witness for C8: one `setGlobal` call replayed on two fresh stores at
different observed times. -/
theorem claimC8_witness :
    ([(MCall.mSetGlobal "a" (JVal.num 1) false, "t1")].map Prod.fst =
      [(MCall.mSetGlobal "a" (JVal.num 1) false, "t2")].map Prod.fst) ∧
    ((replay (freshDB "f" "s0") [(MCall.mSetGlobal "a" (JVal.num 1) false, "t1")]).globalSettings =
      (replay (freshDB "g" "s1") [(MCall.mSetGlobal "a" (JVal.num 1) false, "t2")]).globalSettings ∧
     (replay (freshDB "f" "s0") [(MCall.mSetGlobal "a" (JVal.num 1) false, "t1")]).groupSettings =
      (replay (freshDB "g" "s1") [(MCall.mSetGlobal "a" (JVal.num 1) false, "t2")]).groupSettings ∧
     ([(MCall.mSetGlobal "a" (JVal.num 1) false, "t1")] =
        [(MCall.mSetGlobal "a" (JVal.num 1) false, "t2")] →
      (replay (freshDB "f" "s0") [(MCall.mSetGlobal "a" (JVal.num 1) false, "t1")]).snap =
        (replay (freshDB "g" "s1") [(MCall.mSetGlobal "a" (JVal.num 1) false, "t2")]).snap)) :=
  ⟨rfl, claimC8_amended "f" "g" "s0" "s1"
    [(MCall.mSetGlobal "a" (JVal.num 1) false, "t1")]
    [(MCall.mSetGlobal "a" (JVal.num 1) false, "t2")] rfl⟩

/-- Counterexample to C8 as stated: the same single-call mutation sequence
replayed on fresh stores at two different wall-clock instants produces
different UpdateTimestamps, so the Snapshots are not deep-equal. -/
theorem claimC8_cex :
    (replay (freshDB "f" "s0") [(MCall.mSetGlobal "a" (JVal.num 1) false, "t1")]).updateTimes =
      [("global", [("a", "t1")])] ∧
    (replay (freshDB "f" "s0") [(MCall.mSetGlobal "a" (JVal.num 1) false, "t2")]).updateTimes =
      [("global", [("a", "t2")])] ∧
    ([("global", [("a", "t1")])] : List (String × List (String × String))) ≠
      [("global", [("a", "t2")])] :=
  ⟨rfl, rfl, by decide⟩
